import Mathlib

/-!
Verification of the FlowSight report pipeline: a shallow embedding of the
collector-side HTTP ingestion server (`src/apps/pm/src-tauri/src/pm.rs`)
and the agent-side durable queue and sync client
(`src/apps/agent/src-tauri/src/agent.rs`), together with theorems settling
the specification claims about them.

Modelling conventions:
- SQLite tables become Lean lists of row structures kept in insertion order;
  `AUTOINCREMENT` ids become an explicit `next id` counter starting at 1.
- SQLite `datetime` text values (second granularity, compared
  lexicographically, hence chronologically) become `Nat` seconds.
- The network is an oracle: a push either fails in transport or yields an
  HTTP status, summarised by its `is_success` bit, exactly the information
  `send_report_to_dashboard` extracts from a response.
- Fallible Rust paths become `Except String`.
-/

namespace FlowSight

/-! ### String helpers: Rust `str::contains` and `str::to_lowercase` -/

/-- `leadsWith pat text` is true when `pat` is a leading segment of `text`
(character lists). -/
def leadsWith : List Char → List Char → Bool
  | [], _ => true
  | _ :: _, [] => false
  | a :: as, b :: bs => a == b && leadsWith as bs

/-- `containsSub hay sub`: does `sub` occur contiguously inside `hay`?
Models Rust `hay.contains(sub)` on character lists. -/
def containsSub (hay sub : List Char) : Bool :=
  match hay with
  | [] => leadsWith sub []
  | _ :: cs => leadsWith sub hay || containsSub cs sub

/-- Model of `url.contains("/health")` from `run_http_server`. -/
def urlContainsHealth (url : String) : Bool :=
  containsSub url.toList "/health".toList

/-- Model of Rust `to_lowercase` (ASCII case folding suffices here). -/
def lowerStr (s : String) : String :=
  String.mk (s.toList.map Char.toLower)

/-- `descHas d sub`: model of `d.contains(sub)` on strings. -/
def descHas (d sub : String) : Bool :=
  containsSub d.toList sub.toList

/-! ### Collector data model (`pm.rs`): tables `developers` and `reports` -/

/-- One row of the collector's `developers` table. -/
structure DevRow where
  id : String
  name : String
  device_id : Option String
  is_online : Bool
  last_seen_at : Option Nat
deriving DecidableEq, Repr

/-- One row of the collector's `reports` table. -/
structure ReportRow where
  id : Nat
  developer_id : String
  description : String
  activity_type : String
  created_at : Nat
deriving DecidableEq, Repr

/-- The collector's SQLite database: the two entity tables plus the
`AUTOINCREMENT` counter for `reports.id` (SQLite rowids start at 1). -/
structure PmDb where
  developers : List DevRow
  reports : List ReportRow
  nextReportId : Nat
deriving DecidableEq, Repr

def emptyPmDb : PmDb := ⟨[], [], 1⟩

/-- The body of a `POST /api/report` request after JSON field extraction
(struct `ReportRequest` inside `handle_report`). -/
structure ReportRequest where
  developer_id : Option String
  developer_name : Option String
  device_id : Option String
  description : String
  activity_type : String
deriving DecidableEq, Repr

/-- The developer identity `handle_report` resolves:
`req.developer_id.unwrap_or_else(|| req.device_id.clone().unwrap_or("unknown"))`. -/
def resolvedDevId (req : ReportRequest) : String :=
  req.developer_id.getD (req.device_id.getD "unknown")

/-- Would inserting a fresh developer row with this `device_id` violate the
`device_id TEXT UNIQUE` constraint of the `developers` table?  SQLite lets
any number of NULLs coexist under UNIQUE. -/
def deviceTaken (db : PmDb) (device : Option String) : Bool :=
  match device with
  | none => false
  | some d => db.developers.any (fun r => r.device_id == some d)

/-- The developer upsert in `handle_report`:
`INSERT INTO developers ... VALUES (?1, ?2, ?3, 1, datetime('now'))
 ON CONFLICT(id) DO UPDATE SET name = ?2, is_online = 1,
 last_seen_at = datetime('now')`.
A conflict on `id` updates name/online/last_seen (not `device_id`); with no
`id` conflict the insert runs and, if it violates the `device_id` UNIQUE
constraint instead, the statement errors — an error `handle_report`
discards (`let _ = conn.execute(...)`), leaving the table unchanged. -/
def upsertDeveloper (db : PmDb) (devId devName : String) (device : Option String)
    (now : Nat) : PmDb :=
  if db.developers.any (fun r => r.id == devId) then
    { db with developers := db.developers.map (fun r =>
        if r.id == devId then
          { r with name := devName, is_online := true, last_seen_at := some now }
        else r) }
  else if deviceTaken db device then
    db
  else
    { db with developers :=
        db.developers ++ [⟨devId, devName, device, true, some now⟩] }

/-- The JSON bodies the server can produce (`Response::from_string` inputs). -/
inductive RespBody where
  | errorBody (msg : String)
  | healthOk
  | successId (id : Nat)
  | developersJson (devs : List DevRow)
  | statsJson (total online reports today : Nat)
  | emptyBody
deriving DecidableEq, Repr

/-- `handle_report`: parse the body, resolve the developer identity, upsert
the developer, insert the report, answer with the fresh report id.  The
parse result of `serde_json::from_str` is the `Except` argument; `now` is
SQLite's `datetime('now')` / `CURRENT_TIMESTAMP` at this request. -/
def handle_report (db : PmDb) (parsed : Except String ReportRequest) (now : Nat) :
    PmDb × RespBody :=
  match parsed with
  | .error e => (db, .errorBody ("Invalid JSON: " ++ e))
  | .ok req =>
    let dev_id := resolvedDevId req
    let dev_name := req.developer_name.getD "Unknown"
    let db1 := upsertDeveloper db dev_id dev_name req.device_id now
    let db2 := { db1 with
        reports := db1.reports ++
          [⟨db1.nextReportId, dev_id, req.description, req.activity_type, now⟩],
        nextReportId := db1.nextReportId + 1 }
    (db2, .successId db1.nextReportId)

/-- Sort key for `ORDER BY last_seen_at DESC` (SQLite NULLs come last in a
descending order; `none ↦ 0` below every real timestamp `t ↦ t + 1`). -/
def seenKey : Option Nat → Nat
  | none => 0
  | some t => t + 1

def insertBySeenDesc (r : DevRow) : List DevRow → List DevRow
  | [] => [r]
  | x :: xs =>
    if seenKey x.last_seen_at ≤ seenKey r.last_seen_at then r :: x :: xs
    else x :: insertBySeenDesc r xs

/-- `get_developers_json`: the full developer listing,
`ORDER BY last_seen_at DESC`. -/
def get_developers_json (db : PmDb) : List DevRow :=
  db.developers.foldr insertBySeenDesc []

/-- `get_stats_json`: the four counters recomputed from storage.  The
`created_at LIKE 'YYYY-MM-DD%'` same-calendar-day test becomes equality of
day numbers. -/
def get_stats_json (db : PmDb) (now : Nat) : RespBody :=
  .statsJson
    db.developers.length
    (db.developers.filter (fun r => r.is_online)).length
    db.reports.length
    (db.reports.filter (fun r => r.created_at / 86400 == now / 86400)).length

/-- An incoming HTTP request as `run_http_server` sees it: method, URL, the
value of the first `X-API-Key` header if any, and the parse result of its
body (consulted only on the report route). -/
structure HttpRequest where
  method : String
  url : String
  apiKey : Option String
  body : Except String ReportRequest
deriving Repr

structure HttpResponse where
  status : Nat
  body : RespBody
deriving DecidableEq, Repr

/-- One iteration of `run_http_server`'s request loop, after the stop-flag
check: CORS preflight, the API-key gate
(`req_api_key != Some(api_key) && !url.contains("/health")` ⟶ 401), then
the `(method, url)` routing match.  Every routed response is built by
`Response::from_string`, whose status defaults to 200; only the key gate
sets a status (401). -/
def handleRequest (sharedKey : String) (db : PmDb) (req : HttpRequest) (now : Nat) :
    PmDb × HttpResponse :=
  if req.method == "OPTIONS" then
    (db, ⟨200, .emptyBody⟩)
  else if req.apiKey != some sharedKey && !urlContainsHealth req.url then
    (db, ⟨401, .errorBody "Invalid API key"⟩)
  else if req.method == "GET" && req.url == "/health" then
    (db, ⟨200, .healthOk⟩)
  else if req.method == "POST" && req.url == "/api/report" then
    let out := handle_report db req.body now
    (out.1, ⟨200, out.2⟩)
  else if req.method == "GET" && req.url == "/api/developers" then
    (db, ⟨200, .developersJson (get_developers_json db)⟩)
  else if req.method == "GET" && req.url == "/api/stats" then
    (db, ⟨200, get_stats_json db now⟩)
  else
    (db, ⟨200, .errorBody "Not found"⟩)

/-- `clear_old_reports`:
`DELETE FROM reports WHERE created_at < datetime('now', '-N days')`,
returning the number of deleted rows.  The cutoff `now - days·86400`
truncates at 0, matching "no row is older than an impossibly old date". -/
def clear_old_reports (db : PmDb) (days now : Nat) : PmDb × Nat :=
  ({ db with reports :=
      db.reports.filter (fun r => !decide (r.created_at < now - days * 86400)) },
   db.reports.countP (fun r => decide (r.created_at < now - days * 86400)))

/-- The accept-and-handle loop of `run_http_server` seen through its stop
flag: iteration `i` takes the next incoming request, reads the shared
`running` flag once, and breaks (dropping the request unhandled) when the
flag is false, otherwise handles the request to completion.  The returned
list is the suffix-closed set of requests actually handled. -/
def serveLoop {α : Type} (running : Nat → Bool) : List α → Nat → List α
  | [], _ => []
  | r :: rs, i => if running i then r :: serveLoop running rs (i + 1) else []

/-! ### Agent data model (`agent.rs`): table `activity_reports` and config -/

/-- The Rust `ActivityReport` struct (id is `Option` before insertion). -/
structure ActivityReportM where
  id : Option Nat
  timestamp : String
  dev_id : String
  description : String
  app_name : Option String
  window_title : Option String
  activity_type : String
  synced : Bool
deriving DecidableEq, Repr

/-- One row of the agent's `activity_reports` table (`id` is the
`AUTOINCREMENT` primary key, hence always present). -/
structure AgentRow where
  id : Nat
  timestamp : String
  dev_id : String
  description : String
  app_name : Option String
  window_title : Option String
  activity_type : String
  synced : Bool
deriving DecidableEq, Repr

/-- The agent's SQLite database: the report table in insertion order plus
the `AUTOINCREMENT` counter (SQLite rowids start at 1). -/
structure AgentDb where
  rows : List AgentRow
  nextId : Nat
deriving DecidableEq, Repr

def emptyAgentDb : AgentDb := ⟨[], 1⟩

/-- `save_report`: `INSERT INTO activity_reports ... VALUES (...)`, then
`last_insert_rowid()`. -/
def save_report (db : AgentDb) (r : ActivityReportM) : AgentDb × Nat :=
  (⟨db.rows ++ [⟨db.nextId, r.timestamp, r.dev_id, r.description, r.app_name,
                r.window_title, r.activity_type, r.synced⟩],
    db.nextId + 1⟩,
   db.nextId)

/-- `mark_report_synced`: `UPDATE activity_reports SET synced = 1 WHERE id = ?`. -/
def mark_report_synced (db : AgentDb) (i : Nat) : AgentDb :=
  ⟨db.rows.map (fun r => if r.id == i then { r with synced := true } else r),
   db.nextId⟩

/-- Insertion step for `ORDER BY id` (ascending). -/
def insertById (r : AgentRow) : List AgentRow → List AgentRow
  | [] => [r]
  | x :: xs => if r.id ≤ x.id then r :: x :: xs else x :: insertById r xs

def sortById (l : List AgentRow) : List AgentRow :=
  l.foldr insertById []

/-- `get_unsynced_reports`:
`SELECT ... FROM activity_reports WHERE synced = 0 ORDER BY id LIMIT 50`. -/
def get_unsynced_reports (db : AgentDb) : List AgentRow :=
  (sortById (db.rows.filter (fun r => r.synced == false))).take 50

/-- `get_recent_reports`: `... ORDER BY id DESC LIMIT ?`. -/
def get_recent_reports (db : AgentDb) (limit : Nat) : List AgentRow :=
  ((sortById db.rows).reverse).take limit

/-- The queue operations a caller can issue (spec names: `enqueue` =
`save_report`, `markDelivered` = `mark_report_synced`). -/
inductive AgentOp where
  | enqueue (r : ActivityReportM)
  | markDelivered (i : Nat)
deriving Repr

def applyOp (db : AgentDb) : AgentOp → AgentDb
  | .enqueue r => (save_report db r).1
  | .markDelivered i => mark_report_synced db i

/-- The database reached by a sequence of queue calls on a fresh store. -/
def runOps (ops : List AgentOp) : AgentDb :=
  ops.foldl applyOp emptyAgentDb

/-- The Rust `AgentConfig` struct. -/
structure AgentConfigM where
  api_key : Option String
  developer_id : Option String
  team_id : Option String
  dev_id : Option String
  dev_name : Option String
  pm_dashboard_url : Option String
  capture_interval : Option Nat
  vision_model : Option String
  enable_screen_capture : Option Bool
deriving DecidableEq, Repr

/-- The agent's `config` key/value table. -/
abbrev ConfigStore := List (String × String)

/-- `INSERT OR REPLACE INTO config (key, value) VALUES (?, ?)`: replace the
row with this primary key if present, insert it otherwise. -/
def storeSet : ConfigStore → String → String → ConfigStore
  | [], k, v => [(k, v)]
  | kv :: rest, k, v =>
    if kv.1 == k then (k, v) :: rest else kv :: storeSet rest k v

/-- `SELECT value FROM config WHERE key = ?`. -/
def storeGet (s : ConfigStore) (k : String) : Option String :=
  (s.find? (fun kv => kv.1 == k)).map (fun kv => kv.2)

/-- The six persisted config fields: exactly the keys `save_config` writes
and `load_config` reads (`dev_id`, `capture_interval` and
`enable_screen_capture` are never persisted). -/
inductive CfgField where
  | apiKey | developerId | teamId | devName | pmDashboardUrl | visionModel
deriving DecidableEq, Repr, Fintype

def keyName : CfgField → String
  | .apiKey => "api_key"
  | .developerId => "developer_id"
  | .teamId => "team_id"
  | .devName => "dev_name"
  | .pmDashboardUrl => "pm_dashboard_url"
  | .visionModel => "vision_model"

def fieldGet (c : AgentConfigM) : CfgField → Option String
  | .apiKey => c.api_key
  | .developerId => c.developer_id
  | .teamId => c.team_id
  | .devName => c.dev_name
  | .pmDashboardUrl => c.pm_dashboard_url
  | .visionModel => c.vision_model

def setField (c : AgentConfigM) : CfgField → String → AgentConfigM
  | .apiKey, v => { c with api_key := some v }
  | .developerId, v => { c with developer_id := some v }
  | .teamId, v => { c with team_id := some v }
  | .devName, v => { c with dev_name := some v }
  | .pmDashboardUrl, v => { c with pm_dashboard_url := some v }
  | .visionModel, v => { c with vision_model := some v }

def cfgFields : List CfgField :=
  [.apiKey, .developerId, .teamId, .devName, .pmDashboardUrl, .visionModel]

/-- One iteration of `save_config`'s loop: write the key only when the
field is `Some` (`if let Some(val) = value`). -/
def saveStep (c : AgentConfigM) (acc : ConfigStore) (f : CfgField) : ConfigStore :=
  match fieldGet c f with
  | some v => storeSet acc (keyName f) v
  | none => acc

/-- `save_config`: run the loop over the six `(key, value)` pairs. -/
def save_config (s : ConfigStore) (c : AgentConfigM) : ConfigStore :=
  cfgFields.foldl (saveStep c) s

/-- One iteration of `load_config`'s key loop: overwrite the field when the
key is present in the store. -/
def loadStep (s : ConfigStore) (c : AgentConfigM) (f : CfgField) : AgentConfigM :=
  match storeGet s (keyName f) with
  | some v => setField c f v
  | none => c

/-- `load_config`: read the six keys into the config; finding
`developer_id` also sets `is_registered`. -/
def load_config (c : AgentConfigM) (registered : Bool) (s : ConfigStore) :
    AgentConfigM × Bool :=
  (cfgFields.foldl (loadStep s) c,
   if (storeGet s "developer_id").isSome then true else registered)

/-- `FlowSightAgent::update_config`: replace the whole config, then
`save_config`. -/
def update_config (cNew : AgentConfigM) (s : ConfigStore) :
    AgentConfigM × ConfigStore :=
  (cNew, save_config s cNew)

/-! ### Sync client and capture path (`agent.rs`) -/

/-- What the network did with one push: a transport failure, or an HTTP
response summarised by `status().is_success()`. -/
inductive PushOutcome where
  | transportErr (msg : String)
  | httpStatus (success : Bool)
deriving DecidableEq, Repr

/-- `send_report_to_dashboard`: `Err` on transport failure, otherwise
`Ok(response.status().is_success())`. -/
def send_report_to_dashboard (outcome : PushOutcome) : Except String Bool :=
  match outcome with
  | .transportErr m => .error ("Failed to send report: " ++ m)
  | .httpStatus ok => .ok ok

/-- Rust `Result::is_ok`. -/
def resultIsOk (r : Except String Bool) : Bool :=
  match r with
  | .ok _ => true
  | .error _ => false

/-- `detect_activity_type`: keyword scan over the lowercased description. -/
def detect_activity_type (description : String) : String :=
  let d := lowerStr description
  if descHas d "code" || descHas d "programming" || descHas d "ide" ||
     descHas d "editor" || descHas d "visual studio" || descHas d "vscode" ||
     descHas d "cursor" || descHas d "intellij" then "coding"
  else if descHas d "browser" || descHas d "chrome" || descHas d "firefox" ||
          descHas d "edge" || descHas d "safari" then "browsing"
  else if descHas d "meeting" || descHas d "zoom" || descHas d "teams" ||
          descHas d "slack" || descHas d "discord" then "meeting"
  else if descHas d "terminal" || descHas d "command" || descHas d "powershell" ||
          descHas d "cmd" || descHas d "bash" || descHas d "shell" then "terminal"
  else if descHas d "documentation" || descHas d "reading" || descHas d "docs" ||
          descHas d "wiki" then "documentation"
  else if descHas d "idle" || descHas d "desktop" || descHas d "lock screen" then "idle"
  else "other"

/-- The agent state the sync and capture commands work on. -/
structure AgentSt where
  is_registered : Bool
  config : AgentConfigM
  db : AgentDb
deriving Repr

/-- Observable queue operations, for stating what `sync_reports` touches. -/
inductive QueueOp where
  | listPending
  | pushReport (id : Nat)
  | markDelivered (id : Nat)
deriving DecidableEq, Repr

/-- The per-report loop of `sync_reports`: push each pending report in
order; only an `Ok(true)` (success acknowledgment) leads to
`mark_report_synced`; everything else counts as failed and the row stays
pending. -/
def syncLoop (net : Nat → PushOutcome) : AgentDb → List AgentRow →
    AgentDb × Nat × Nat × List QueueOp
  | db, [] => (db, 0, 0, [])
  | db, r :: rest =>
    match send_report_to_dashboard (net r.id) with
    | .ok true =>
      let db1 := mark_report_synced db r.id
      let out := syncLoop net db1 rest
      (out.1, out.2.1 + 1, out.2.2.1, .pushReport r.id :: .markDelivered r.id :: out.2.2.2)
    | _ =>
      let out := syncLoop net db rest
      (out.1, out.2.1, out.2.2.1 + 1, .pushReport r.id :: out.2.2.2)

/-- `sync_reports`: refuse when not registered; otherwise read the pending
queue, then check the credentials (`ok_or`), defaulting a missing dashboard
URL; then drain the queue.  Returns the `(synced, failed)` tallies, the
resulting database and the trace of queue operations performed. -/
def sync_reports (st : AgentSt) (net : Nat → PushOutcome) :
    Except String (Nat × Nat) × AgentDb × List QueueOp :=
  if !st.is_registered then
    (.error "Not registered. Please enter your API key first.", st.db, [])
  else
    let unsynced := get_unsynced_reports st.db
    match st.config.api_key with
    | none => (.error "API key not set", st.db, [.listPending])
    | some _ =>
      match st.config.developer_id with
      | none => (.error "Developer ID not set", st.db, [.listPending])
      | some _ =>
        let out := syncLoop net st.db unsynced
        (.ok (out.2.1, out.2.2.1), out.1, .listPending :: out.2.2.2)

/-- `capture_and_analyze` from the point where screenshot and vision
analysis have produced `desc` at timestamp `ts`: build the report, save it
locally (pending), and — when registered with credentials present — push it
and mark it synced whenever `send_report_to_dashboard(...).is_ok()`. -/
def capture_and_analyze (st : AgentSt) (ts desc : String) (outcome : PushOutcome) :
    AgentSt × ActivityReportM :=
  let dev_id := st.config.dev_id.getD "unknown"
  let activity_type := detect_activity_type desc
  let report0 : ActivityReportM :=
    ⟨none, ts, dev_id, desc, none, none, activity_type, false⟩
  let saved := save_report st.db report0
  let report1 := { report0 with id := some saved.2 }
  if st.is_registered then
    match st.config.api_key, st.config.developer_id with
    | some _, some _ =>
      if resultIsOk (send_report_to_dashboard outcome) then
        ({ st with db := mark_report_synced saved.1 saved.2 },
         { report1 with synced := true })
      else ({ st with db := saved.1 }, report1)
    | _, _ => ({ st with db := saved.1 }, report1)
  else ({ st with db := saved.1 }, report1)

/-! ### Queue invariants (towards C4) -/

/-- The agent report table invariant maintained by the queue API: rows sit
in strictly ascending id order and every id is below the counter. -/
def rowsOrdered (db : AgentDb) : Prop :=
  db.rows.Pairwise (fun a b => a.id < b.id) ∧ ∀ r ∈ db.rows, r.id < db.nextId

theorem rowsOrdered_empty : rowsOrdered emptyAgentDb := by
  constructor
  · exact List.Pairwise.nil
  · intro r hr; cases hr

theorem mark_id_eq (i : Nat) (r : AgentRow) :
    ((if r.id == i then { r with synced := true } else r) : AgentRow).id = r.id := by
  split <;> rfl

theorem rowsOrdered_applyOp (db : AgentDb) (op : AgentOp) (h : rowsOrdered db) :
    rowsOrdered (applyOp db op) := by
  rcases h with ⟨hpw, hlt⟩
  cases op with
  | enqueue r =>
    constructor
    · simp only [applyOp, save_report]
      refine List.pairwise_append.mpr ⟨hpw, List.pairwise_singleton _ _, ?_⟩
      intro a ha b hb
      simp only [List.mem_singleton] at hb
      subst hb
      exact hlt a ha
    · simp only [applyOp, save_report]
      intro x hx
      rcases List.mem_append.mp hx with hx | hx
      · exact Nat.lt_succ_of_lt (hlt x hx)
      · simp only [List.mem_singleton] at hx
        subst hx
        exact Nat.lt_succ_self _
  | markDelivered i =>
    constructor
    · simp only [applyOp, mark_report_synced]
      refine List.pairwise_map.mpr ?_
      refine hpw.imp_of_mem ?_
      intro a b _ _ hab
      rw [mark_id_eq, mark_id_eq]
      exact hab
    · simp only [applyOp, mark_report_synced]
      intro x hx
      rcases List.mem_map.mp hx with ⟨y, hy, hxy⟩
      subst hxy
      rw [mark_id_eq]
      exact hlt y hy

theorem rowsOrdered_foldl (ops : List AgentOp) :
    ∀ db, rowsOrdered db → rowsOrdered (ops.foldl applyOp db) := by
  induction ops with
  | nil => intro db h; exact h
  | cons op rest ih =>
    intro db h
    exact ih _ (rowsOrdered_applyOp db op h)

theorem rowsOrdered_runOps (ops : List AgentOp) : rowsOrdered (runOps ops) :=
  rowsOrdered_foldl ops emptyAgentDb rowsOrdered_empty

/-- A list already in strictly ascending id order is a fixed point of
`sortById`. -/
theorem sortById_eq_self (l : List AgentRow)
    (h : l.Pairwise (fun a b => a.id < b.id)) : sortById l = l := by
  induction l with
  | nil => rfl
  | cons x xs ih =>
    have hx : ∀ y ∈ xs, x.id < y.id := fun y hy => (List.pairwise_cons.mp h).1 y hy
    have htail : sortById xs = xs := ih (List.pairwise_cons.mp h).2
    show insertById x (sortById xs) = x :: xs
    rw [htail]
    cases xs with
    | nil => rfl
    | cons y ys =>
      have : x.id ≤ y.id := Nat.le_of_lt (hx y (List.mem_cons_self y ys))
      simp [insertById, this]

/-- C4: for every sequence of enqueue (`save_report`) and markDelivered
(`mark_report_synced`) calls, listPending (`get_unsynced_reports`) returns
entries in strictly ascending id order, never returns an entry already
marked delivered, and returns at most 50 entries. -/
theorem c4_listPending_sorted_unsynced_capped (ops : List AgentOp) :
    (get_unsynced_reports (runOps ops)).Pairwise (fun a b => a.id < b.id)
    ∧ (∀ r ∈ get_unsynced_reports (runOps ops), r.synced = false)
    ∧ (get_unsynced_reports (runOps ops)).length ≤ 50 := by
  have hord := rowsOrdered_runOps ops
  have hpwf : ((runOps ops).rows.filter (fun r => r.synced == false)).Pairwise
      (fun a b => a.id < b.id) := hord.1.filter _
  have hsort := sortById_eq_self _ hpwf
  unfold get_unsynced_reports
  rw [hsort]
  refine ⟨?_, ?_, ?_⟩
  · exact List.Pairwise.sublist (List.take_sublist 50 _) hpwf
  · intro r hr
    have hr' := List.mem_of_mem_take hr
    have := (List.mem_filter.mp hr').2
    simpa using this
  · exact List.length_take_le 50 _

/-! ### C9: cooperative stop of the serving loop -/

theorem serveLoop_length_le {α : Type} (running : Nat → Bool) (j : Nat)
    (h : ∀ i, j < i → running i = false) :
    ∀ (reqs : List α) (k : Nat), (serveLoop running reqs k).length ≤ j + 1 - k := by
  intro reqs
  induction reqs with
  | nil => intro k; simp [serveLoop]
  | cons r rs ih =>
    intro k
    cases hk : running k with
    | false => simp [serveLoop, hk]
    | true =>
      have hkj : k ≤ j := by
        by_contra hgt
        have hf := h k (Nat.lt_of_not_le hgt)
        rw [hf] at hk
        exact Bool.noConfusion hk
      have hrec := ih (k + 1)
      simp only [serveLoop, hk, if_true, List.length_cons]
      omega

/-- C9: once the shared running flag reads false from some iteration on —
iteration `j` is the last one whose flag check could precede the stop
request — the serving loop handles at most one further request beyond the
`j` it had fully started, i.e. at most `j + 1` requests in total: after a
stop request, at most the single in-flight request is handled before the
listener quits. -/
theorem c9_stop_bound {α : Type} (running : Nat → Bool) (reqs : List α) (j : Nat)
    (h : ∀ i, j < i → running i = false) :
    (serveLoop running reqs 0).length ≤ j + 1 := by
  simpa using serveLoop_length_le running j h reqs 0

/-- Witness for C9 at a concrete flag and request list: the flag is true
only at iteration 0, so at most one request is handled. -/
theorem c9_stop_bound_witness :
    (serveLoop (fun i => decide (i = 0)) [10, 20, 30] 0).length ≤ 1 := by
  have := c9_stop_bound (fun i => decide (i = 0)) [10, 20, 30] 0
    (by intro i hi; simp; omega)
  simpa using this

/-! ### The API-key gate (towards C1 and C3) -/

theorem auth_gate_fires (key : String) (db : PmDb) (req : HttpRequest) (now : Nat)
    (hm : req.method ≠ "OPTIONS") (hk : req.apiKey ≠ some key)
    (hc : urlContainsHealth req.url = false) :
    handleRequest key db req now = (db, ⟨401, .errorBody "Invalid API key"⟩) := by
  have hm' : (req.method == "OPTIONS") = false := beq_eq_false_iff_ne.mpr hm
  have hk' : (req.apiKey == some key) = false := beq_eq_false_iff_ne.mpr hk
  simp [handleRequest, hm', hk', hc, bne]

theorem badkey_leaves_db (key : String) (db : PmDb) (req : HttpRequest) (now : Nat)
    (hm : req.method ≠ "OPTIONS") (hk : req.apiKey ≠ some key) :
    (handleRequest key db req now).1 = db := by
  have hm' : (req.method == "OPTIONS") = false := beq_eq_false_iff_ne.mpr hm
  have hk' : (req.apiKey == some key) = false := beq_eq_false_iff_ne.mpr hk
  cases hc : urlContainsHealth req.url with
  | false => rw [auth_gate_fires key db req now hm hk hc]
  | true =>
    unfold handleRequest
    simp only [hm', hk', hc, bne, Bool.not_true, Bool.and_false, Bool.false_eq_true,
      if_false]
    split_ifs with h2 h3 h4 h5
    · rfl
    · have hurl : req.url = "/api/report" := by
        have := (Bool.and_eq_true _ _).mp h3
        exact beq_iff_eq.mp this.2
      rw [hurl] at hc
      exact absurd hc (by decide)
    · rfl
    · rfl
    · rfl

/-- C1 counterexample: a request whose URL is `"/healthcheck"` — not the
health path — with no API key at all is not answered with 401: the gate
tests `url.contains("/health")`, which this URL passes, and the request
falls through to the not-found arm, answered with status 200. -/
theorem c1_counterexample :
    (handleRequest "secret" emptyPmDb ⟨"GET", "/healthcheck", none, .error "x"⟩ 0).2.status
      = 200
    ∧ (handleRequest "secret" emptyPmDb ⟨"GET", "/healthcheck", none, .error "x"⟩ 0).2.status
      ≠ 401
    ∧ "GET" ≠ "OPTIONS" ∧ "/healthcheck" ≠ "/health"
    ∧ (handleRequest "secret" emptyPmDb ⟨"GET", "/healthcheck", none, .error "x"⟩ 0).2.body
      = .errorBody "Not found" :=
  ⟨rfl, by decide, by decide, by decide, rfl⟩

/-- C1 (amended): for a non-OPTIONS request with a missing or wrong
`X-API-Key`, storage is never read or mutated (the database component is
returned unchanged and no table-touching route runs), and whenever the URL
does not contain the substring `"/health"` (rather than: is not the health
path) the response is exactly 401 with the invalid-key error body. -/
theorem c1_auth_gate (key : String) (db : PmDb) (req : HttpRequest) (now : Nat)
    (hm : req.method ≠ "OPTIONS") (hk : req.apiKey ≠ some key) :
    (handleRequest key db req now).1 = db
    ∧ (urlContainsHealth req.url = false →
        handleRequest key db req now = (db, ⟨401, .errorBody "Invalid API key"⟩)) :=
  ⟨badkey_leaves_db key db req now hm hk,
   fun hc => auth_gate_fires key db req now hm hk hc⟩

/-- Witness for C1 (amended) at a concrete keyless request to the stats
route. -/
theorem c1_auth_gate_witness :
    (handleRequest "K" emptyPmDb ⟨"GET", "/api/stats", none, .error ""⟩ 0).1 = emptyPmDb
    ∧ handleRequest "K" emptyPmDb ⟨"GET", "/api/stats", none, .error ""⟩ 0
      = (emptyPmDb, ⟨401, .errorBody "Invalid API key"⟩) := by
  have h := c1_auth_gate "K" emptyPmDb ⟨"GET", "/api/stats", none, .error ""⟩ 0
    (by decide) (by decide)
  exact ⟨h.1, h.2 (by decide)⟩

/-- C3 counterexample: an unknown route with a valid key is answered with
the JSON error body but with HTTP status 200, not 404. -/
theorem c3_counterexample :
    handleRequest "K" emptyPmDb ⟨"GET", "/nope", some "K", .error "eof"⟩ 0
      = (emptyPmDb, ⟨200, .errorBody "Not found"⟩)
    ∧ (handleRequest "K" emptyPmDb ⟨"GET", "/nope", some "K", .error "eof"⟩ 0).2.status
      ≠ 404 :=
  ⟨rfl, by decide⟩

/-- C3 (amended): every error response of the server carries the JSON body
`error: message`; the bad-key response has status 401, but malformed JSON
on the report push and unknown routes are answered with the error body at
status 200 (the `Response::from_string` default), not with a 4xx/404
status. -/
theorem c3_error_responses (key : String) (db : PmDb) (req : HttpRequest) (now : Nat) :
    (req.method ≠ "OPTIONS" → req.apiKey ≠ some key →
      urlContainsHealth req.url = false →
      handleRequest key db req now = (db, ⟨401, .errorBody "Invalid API key"⟩))
    ∧ (∀ e, req.apiKey = some key → req.method = "POST" → req.url = "/api/report" →
        req.body = .error e →
        handleRequest key db req now = (db, ⟨200, .errorBody ("Invalid JSON: " ++ e)⟩))
    ∧ (req.apiKey = some key → req.method ≠ "OPTIONS" →
        (req.method == "GET" && req.url == "/health") = false →
        (req.method == "POST" && req.url == "/api/report") = false →
        (req.method == "GET" && req.url == "/api/developers") = false →
        (req.method == "GET" && req.url == "/api/stats") = false →
        handleRequest key db req now = (db, ⟨200, .errorBody "Not found"⟩)) := by
  refine ⟨fun hm hk hc => auth_gate_fires key db req now hm hk hc, ?_, ?_⟩
  · intro e hk hm hu hb
    unfold handleRequest
    rw [hm, hu, hk, hb]
    simp [handle_report, bne]
  · intro hk hm h1 h2 h3 h4
    have hm' : (req.method == "OPTIONS") = false := beq_eq_false_iff_ne.mpr hm
    unfold handleRequest
    rw [hk]
    simp [hm', h1, h2, h3, h4, bne]

/-- Witness for C3 (amended): a malformed report body with a valid key
yields the invalid-JSON error at status 200. -/
theorem c3_error_responses_witness :
    handleRequest "K" emptyPmDb ⟨"POST", "/api/report", some "K", .error "eof"⟩ 0
      = (emptyPmDb, ⟨200, .errorBody "Invalid JSON: eof"⟩) :=
  (c3_error_responses "K" emptyPmDb ⟨"POST", "/api/report", some "K", .error "eof"⟩ 0).2.1
    "eof" rfl rfl rfl rfl

/-! ### C5 and C6: developer upsert on report push -/

/-- The developer upsert never touches the report table or its counter. -/
theorem upsert_frame (db : PmDb) (i n : String) (d : Option String) (t : Nat) :
    (upsertDeveloper db i n d t).reports = db.reports
    ∧ (upsertDeveloper db i n d t).nextReportId = db.nextReportId := by
  unfold upsertDeveloper
  split_ifs <;> exact ⟨rfl, rfl⟩

def reqAlice : ReportRequest := ⟨some "A", some "Alice", some "X", "dA", "coding"⟩

def reqBob : ReportRequest := ⟨some "B", some "Bob", some "X", "dB", "coding"⟩

/-- C5 counterexample: two accepted pushes for the same identity handled at
the same clock reading (SQLite `datetime('now')` has second granularity)
leave `last_seen_at` unchanged — it does not strictly increase. -/
theorem c5_counterexample :
    (handle_report emptyPmDb (.ok reqAlice) 5).1.developers.map (fun d => d.last_seen_at)
      = [some 5]
    ∧ (handle_report (handle_report emptyPmDb (.ok reqAlice) 5).1 (.ok reqAlice) 5).1.developers.map
        (fun d => d.last_seen_at)
      = [some 5]
    ∧ ¬ (5 : Nat) < 5 :=
  ⟨rfl, rfl, by decide⟩

/-- C5 (amended): the first accepted push for a fresh identity creates
exactly one Developer row, online with `last_seen_at` the push time; a
second accepted push for the same identity creates no duplicate and
refreshes `last_seen_at` to the second push's time — hence it strictly
increases exactly when the second push carries a strictly later clock
reading (pushes within the same second leave it unchanged). -/
theorem c5_upsert_single_row (devId devName : String) (device : Option String)
    (desc atype : String) (t1 t2 : Nat) (h : t1 < t2) :
    (handle_report emptyPmDb (.ok ⟨some devId, some devName, device, desc, atype⟩) t1).1.developers
      = [⟨devId, devName, device, true, some t1⟩]
    ∧ (handle_report emptyPmDb (.ok ⟨some devId, some devName, device, desc, atype⟩) t1).2
      = .successId 1
    ∧ (handle_report
        (handle_report emptyPmDb (.ok ⟨some devId, some devName, device, desc, atype⟩) t1).1
        (.ok ⟨some devId, some devName, device, desc, atype⟩) t2).1.developers
      = [⟨devId, devName, device, true, some t2⟩]
    ∧ (handle_report
        (handle_report emptyPmDb (.ok ⟨some devId, some devName, device, desc, atype⟩) t1).1
        (.ok ⟨some devId, some devName, device, desc, atype⟩) t2).2
      = .successId 2
    ∧ t1 < t2 := by
  refine ⟨?_, ?_, ?_, ?_, h⟩ <;>
    cases device <;>
    simp [handle_report, resolvedDevId, upsertDeveloper, deviceTaken, emptyPmDb]

/-- Witness for C5 (amended) at identity `"A"` pushed at times 1 and 2. -/
theorem c5_upsert_single_row_witness :
    (handle_report emptyPmDb (.ok ⟨some "A", some "Alice", some "X", "d", "c"⟩) 1).1.developers
      = [⟨"A", "Alice", some "X", true, some 1⟩]
    ∧ (handle_report emptyPmDb (.ok ⟨some "A", some "Alice", some "X", "d", "c"⟩) 1).2
      = .successId 1
    ∧ (handle_report
        (handle_report emptyPmDb (.ok ⟨some "A", some "Alice", some "X", "d", "c"⟩) 1).1
        (.ok ⟨some "A", some "Alice", some "X", "d", "c"⟩) 2).1.developers
      = [⟨"A", "Alice", some "X", true, some 2⟩]
    ∧ (handle_report
        (handle_report emptyPmDb (.ok ⟨some "A", some "Alice", some "X", "d", "c"⟩) 1).1
        (.ok ⟨some "A", some "Alice", some "X", "d", "c"⟩) 2).2
      = .successId 2
    ∧ (1 : Nat) < 2 :=
  c5_upsert_single_row "A" "Alice" (some "X") "d" "c" 1 2 (by decide)

/-- C6 counterexample: after Alice (id `"A"`, device `"X"`) is known, a
push for id `"B"` with the same device `"X"` is accepted — the report
insert succeeds and the success id is returned — but the developer upsert
failed against the `device_id` UNIQUE constraint (the error is discarded),
so the accepted Report's `developer_id = "B"` dangles: no Developer row
`"B"` exists. -/
theorem c6_counterexample :
    (handle_report (handle_report emptyPmDb (.ok reqAlice) 10).1 (.ok reqBob) 20).2
      = .successId 2
    ∧ ((handle_report (handle_report emptyPmDb (.ok reqAlice) 10).1 (.ok reqBob) 20).1.reports.map
        (fun r => r.developer_id)) = ["A", "B"]
    ∧ ((handle_report (handle_report emptyPmDb (.ok reqAlice) 10).1 (.ok reqBob) 20).1.developers.map
        (fun d => d.id)) = ["A"]
    ∧ ∀ d ∈ (handle_report (handle_report emptyPmDb (.ok reqAlice) 10).1 (.ok reqBob) 20).1.developers,
        d.id ≠ "B" :=
  ⟨rfl, rfl, rfl, by decide⟩

/-- C6 (amended): an accepted report push whose developer upsert does not
hit a `device_id` uniqueness conflict — i.e. the identity already has a
row, or its device is not yet bound to another row — answers with the
fresh report id and leaves the inserted Report's `developer_id` referring
to an existing Developer row. -/
theorem c6_report_references_developer (db : PmDb) (req : ReportRequest) (now : Nat)
    (h : db.developers.any (fun r => r.id == resolvedDevId req) = true
         ∨ deviceTaken db req.device_id = false) :
    (handle_report db (.ok req) now).2 = .successId db.nextReportId
    ∧ (∃ d ∈ (handle_report db (.ok req) now).1.developers, d.id = resolvedDevId req)
    ∧ (∃ rp ∈ (handle_report db (.ok req) now).1.reports,
        rp.id = db.nextReportId ∧ rp.developer_id = resolvedDevId req) := by
  have hfr := upsert_frame db (resolvedDevId req) (req.developer_name.getD "Unknown")
    req.device_id now
  refine ⟨?_, ?_, ?_⟩
  · simp [handle_report, hfr.2]
  · show ∃ d ∈ (upsertDeveloper db (resolvedDevId req) (req.developer_name.getD "Unknown")
        req.device_id now).developers, d.id = resolvedDevId req
    cases hany : db.developers.any (fun r => r.id == resolvedDevId req) with
    | true =>
      rcases List.any_eq_true.mp hany with ⟨d0, hd0, hbeq⟩
      unfold upsertDeveloper
      rw [if_pos hany]
      simp only [List.mem_map]
      refine ⟨_, ⟨d0, hd0, rfl⟩, ?_⟩
      rw [if_pos hbeq]
      exact beq_iff_eq.mp hbeq
    | false =>
      have hdt : deviceTaken db req.device_id = false := by
        rcases h with h | h
        · rw [hany] at h; exact Bool.noConfusion h
        · exact h
      refine ⟨⟨resolvedDevId req, req.developer_name.getD "Unknown", req.device_id,
              true, some now⟩, ?_, rfl⟩
      unfold upsertDeveloper
      rw [if_neg (by simp [hany]), if_neg (by simp [hdt])]
      exact List.mem_append_right _ (List.mem_singleton_self _)
  · refine ⟨⟨db.nextReportId, resolvedDevId req, req.description, req.activity_type, now⟩,
      ?_, rfl, rfl⟩
    show _ ∈ (handle_report db (.ok req) now).1.reports
    simp only [handle_report]
    rw [hfr.1, hfr.2]
    exact List.mem_append_right _ (List.mem_singleton_self _)

/-- Witness for C6 (amended): pushing for the fresh identity `"A"` on an
empty collector database. -/
theorem c6_report_references_developer_witness :
    (handle_report emptyPmDb (.ok reqAlice) 3).2 = .successId emptyPmDb.nextReportId
    ∧ (∃ d ∈ (handle_report emptyPmDb (.ok reqAlice) 3).1.developers,
        d.id = resolvedDevId reqAlice)
    ∧ (∃ rp ∈ (handle_report emptyPmDb (.ok reqAlice) 3).1.reports,
        rp.id = emptyPmDb.nextReportId ∧ rp.developer_id = resolvedDevId reqAlice) :=
  c6_report_references_developer emptyPmDb reqAlice 3 (Or.inr (by decide))

/-! ### C8: retention sweep -/

def dbOneReport : PmDb := ⟨[], [⟨1, "A", "d", "t", 100⟩], 2⟩

/-- C8 counterexample: `clear_old_reports` with `days = 0` does not delete
a report whose `created_at` equals the call's clock reading (the SQL
comparison is strict `<`), so it does not delete "all Report rows". -/
theorem c8_counterexample :
    clear_old_reports dbOneReport 0 100 = (dbOneReport, 0)
    ∧ dbOneReport.reports ≠ [] :=
  ⟨rfl, by decide⟩

theorem filter_idem (l : List ReportRow) (p : ReportRow → Bool) :
    (l.filter p).filter p = l.filter p := by
  rw [List.filter_filter]
  exact List.filter_congr (fun x _ => Bool.and_self _)

theorem filter_not_countP (l : List ReportRow) (p : ReportRow → Bool) :
    (l.filter (fun r => !p r)).countP p = 0 := by
  rw [List.countP_eq_zero]
  intro a ha
  have h2 := (List.mem_filter.mp ha).2
  simp at h2
  simp [h2]

/-- C8 (amended): with `days = 0` the sweep deletes exactly the reports
whose `created_at` is strictly before the call time (a report stored at
the very same second survives); with `days` so large that the cutoff
underflows to the epoch it deletes nothing; and a repeated call with the
same arguments deletes nothing further and leaves the table unchanged. -/
theorem c8_purge (db : PmDb) (days now : Nat) :
    (∀ r ∈ db.reports, r.created_at < now → r ∉ (clear_old_reports db 0 now).1.reports)
    ∧ (∀ r ∈ (clear_old_reports db 0 now).1.reports, now ≤ r.created_at)
    ∧ (now ≤ days * 86400 → clear_old_reports db days now = (db, 0))
    ∧ (clear_old_reports (clear_old_reports db days now).1 days now
        = ((clear_old_reports db days now).1, 0)) := by
  refine ⟨?_, ?_, ?_, ?_⟩
  · intro r _ hlt hmem
    have := (List.mem_filter.mp hmem).2
    simp at this
    omega
  · intro r hmem
    have := (List.mem_filter.mp hmem).2
    simp at this
    omega
  · intro hle
    have hc : now - days * 86400 = 0 := Nat.sub_eq_zero_of_le hle
    unfold clear_old_reports
    rw [hc]
    simp
  · unfold clear_old_reports
    rw [filter_idem db.reports (fun r => !decide (r.created_at < now - days * 86400)),
      filter_not_countP db.reports (fun r => decide (r.created_at < now - days * 86400))]

/-- Witness for C8 (amended): a huge retention horizon deletes nothing. -/
theorem c8_purge_witness :
    clear_old_reports dbOneReport 1 5 = (dbOneReport, 0) :=
  (c8_purge dbOneReport 1 5).2.2.1 (by decide)

/-! ### C2: what the agent marks delivered -/

def cfgRegistered : AgentConfigM :=
  ⟨some "k", some "dev-1", none, some "me", none, none, none, none, none⟩

def stRegistered : AgentSt := ⟨true, cfgRegistered, emptyAgentDb⟩

/-- C2, evaluated at the failing input: when the collector answers the
capture-time push with a non-success HTTP status,
`send_report_to_dashboard` returns `Ok(false)` — yet `capture_and_analyze`
tests only `is_ok()`, so it marks the freshly saved observation delivered
(`synced = 1`) anyway, both in the returned report and in the table.  By
contrast `sync_reports`, fed the same non-success outcome for a pending
row, correctly leaves the row pending (it requires `Ok(true)`). -/
theorem c2_capture_marks_delivered_on_failure :
    send_report_to_dashboard (.httpStatus false) = .ok false
    ∧ (capture_and_analyze stRegistered "t1" "Editing code in vscode" (.httpStatus false)).2.synced
      = true
    ∧ ((capture_and_analyze stRegistered "t1" "Editing code in vscode"
        (.httpStatus false)).1.db.rows.map (fun r => r.synced)) = [true]
    ∧ (sync_reports ⟨true, cfgRegistered, ⟨[⟨1, "t1", "me", "d", none, none, "coding", false⟩], 2⟩⟩
        (fun _ => .httpStatus false)).2.1
      = ⟨[⟨1, "t1", "me", "d", none, none, "coding", false⟩], 2⟩ :=
  ⟨rfl, rfl, rfl, rfl⟩

/-! ### C7: sync-time configuration gate -/

def cfgNoKey : AgentConfigM :=
  ⟨none, some "dev-1", none, none, none, none, none, none, none⟩

/-- C7 counterexample: a registered agent whose API key is absent fails
`sync_reports` with "API key not set" — but only after the pending-queue
read (`get_unsynced_reports`) has already happened, so the queue is
touched, contrary to the claim. -/
theorem c7_counterexample :
    sync_reports ⟨true, cfgNoKey, emptyAgentDb⟩ (fun _ => .httpStatus true)
      = (.error "API key not set", emptyAgentDb, [.listPending])
    ∧ ([QueueOp.listPending] : List QueueOp) ≠ [] :=
  ⟨rfl, by simp⟩

/-- C7 (amended): an unregistered agent fails fast with no queue operation
at all; a registered agent with a missing API key or developer id fails
with the corresponding "not set" error after exactly one pending-queue
read but with no push and no delivered-marking (the database is returned
unchanged); and an absent collector URL never causes a failure — it is
defaulted, and `sync_reports` returns a tally. -/
theorem c7_sync_config_gate (st : AgentSt) (net : Nat → PushOutcome) :
    (st.is_registered = false →
      sync_reports st net
        = (.error "Not registered. Please enter your API key first.", st.db, []))
    ∧ (st.is_registered = true → st.config.api_key = none →
        sync_reports st net = (.error "API key not set", st.db, [.listPending]))
    ∧ (∀ k, st.is_registered = true → st.config.api_key = some k →
        st.config.developer_id = none →
        sync_reports st net = (.error "Developer ID not set", st.db, [.listPending]))
    ∧ (∀ k d, st.is_registered = true → st.config.api_key = some k →
        st.config.developer_id = some d →
        ∃ s f, (sync_reports st net).1 = .ok (s, f)) := by
  refine ⟨?_, ?_, ?_, ?_⟩
  · intro h
    simp [sync_reports, h]
  · intro h hk
    simp [sync_reports, h, hk]
  · intro k h hk hd
    simp [sync_reports, h, hk, hd]
  · intro k d h hk hd
    refine ⟨(syncLoop net st.db (get_unsynced_reports st.db)).2.1,
      (syncLoop net st.db (get_unsynced_reports st.db)).2.2.1, ?_⟩
    simp [sync_reports, h, hk, hd]

/-- Witness for C7 (amended): the registered-but-keyless case, showing the
error together with the single queue read. -/
theorem c7_sync_config_gate_witness :
    sync_reports ⟨true, cfgNoKey, emptyAgentDb⟩ (fun _ => .httpStatus true)
      = (.error "API key not set", emptyAgentDb, [.listPending]) :=
  (c7_sync_config_gate ⟨true, cfgNoKey, emptyAgentDb⟩ (fun _ => .httpStatus true)).2.1 rfl rfl

/-! ### C10: persisted config keys survive a None update -/

theorem keyName_inj {g f : CfgField} (h : keyName g = keyName f) : g = f := by
  revert h
  revert g f
  decide

theorem storeGet_storeSet_ne (s : ConfigStore) (k k' v : String) (h : k' ≠ k) :
    storeGet (storeSet s k v) k' = storeGet s k' := by
  induction s with
  | nil =>
    simp [storeSet, storeGet, List.find?, beq_eq_false_iff_ne.mpr (Ne.symm h)]
  | cons kv rest ih =>
    cases hkv : kv.1 == k with
    | true =>
      have hk1 : kv.1 = k := beq_iff_eq.mp hkv
      simp only [storeSet, hkv, if_true]
      simp [storeGet, List.find?, beq_eq_false_iff_ne.mpr (Ne.symm h),
        hk1, beq_eq_false_iff_ne.mpr (fun he => h he.symm)]
    | false =>
      simp only [storeSet, hkv, Bool.false_eq_true, if_false]
      cases hkv' : kv.1 == k' with
      | true => simp [storeGet, List.find?, hkv']
      | false =>
        simp only [storeGet, List.find?, hkv']
        exact ih

theorem storeGet_saveStep_skip (c : AgentConfigM) (s : ConfigStore) (g f : CfgField)
    (h : g = f → fieldGet c g = none) :
    storeGet (saveStep c s g) (keyName f) = storeGet s (keyName f) := by
  by_cases hgf : g = f
  · subst hgf
    unfold saveStep
    rw [h rfl]
  · unfold saveStep
    cases fieldGet c g with
    | none => rfl
    | some v =>
      exact storeGet_storeSet_ne s (keyName g) (keyName f) v
        (fun he => hgf (keyName_inj he).symm)

theorem storeGet_foldl_save (c : AgentConfigM) (f : CfgField)
    (hf : fieldGet c f = none) :
    ∀ (fs : List CfgField) (s : ConfigStore),
      storeGet (fs.foldl (saveStep c) s) (keyName f) = storeGet s (keyName f) := by
  intro fs
  induction fs with
  | nil => intro s; rfl
  | cons g gs ih =>
    intro s
    have hstep : storeGet (saveStep c s g) (keyName f) = storeGet s (keyName f) :=
      storeGet_saveStep_skip c s g f (fun he => he ▸ hf)
    calc storeGet ((g :: gs).foldl (saveStep c) s) (keyName f)
        = storeGet (gs.foldl (saveStep c) (saveStep c s g)) (keyName f) := rfl
      _ = storeGet (saveStep c s g) (keyName f) := ih _
      _ = storeGet s (keyName f) := hstep

theorem fieldGet_setField_self (c : AgentConfigM) (f : CfgField) (v : String) :
    fieldGet (setField c f v) f = some v := by
  cases f <;> rfl

theorem fieldGet_setField_ne (c : AgentConfigM) {g f : CfgField} (v : String)
    (h : g ≠ f) : fieldGet (setField c g v) f = fieldGet c f := by
  cases g <;> cases f <;> first | rfl | exact absurd rfl h

theorem fieldGet_loadStep_ne (s : ConfigStore) (c : AgentConfigM) {g f : CfgField}
    (h : g ≠ f) : fieldGet (loadStep s c g) f = fieldGet c f := by
  unfold loadStep
  cases storeGet s (keyName g) with
  | none => rfl
  | some v => exact fieldGet_setField_ne c v h

theorem fieldGet_foldl_not_mem (s : ConfigStore) (c : AgentConfigM) (f : CfgField) :
    ∀ (fs : List CfgField), f ∉ fs →
      fieldGet (fs.foldl (loadStep s) c) f = fieldGet c f := by
  intro fs
  induction fs generalizing c with
  | nil => intro _; rfl
  | cons g gs ih =>
    intro hnm
    have hg : g ≠ f := fun he => hnm (he ▸ List.mem_cons_self g gs)
    have hgs : f ∉ gs := fun hm => hnm (List.mem_cons_of_mem g hm)
    calc fieldGet ((g :: gs).foldl (loadStep s) c) f
        = fieldGet (gs.foldl (loadStep s) (loadStep s c g)) f := rfl
      _ = fieldGet (loadStep s c g) f := ih _ hgs
      _ = fieldGet c f := fieldGet_loadStep_ne s c hg

theorem fieldGet_foldl_load (s : ConfigStore) (f : CfgField) (v : String)
    (h : storeGet s (keyName f) = some v) :
    ∀ (fs : List CfgField) (c : AgentConfigM), fs.Nodup → f ∈ fs →
      fieldGet (fs.foldl (loadStep s) c) f = some v := by
  intro fs
  induction fs with
  | nil => intro c _ hm; cases hm
  | cons g gs ih =>
    intro c hnd hm
    by_cases hgf : g = f
    · subst hgf
      have hnotin : g ∉ gs := (List.nodup_cons.mp hnd).1
      calc fieldGet ((g :: gs).foldl (loadStep s) c) g
          = fieldGet (gs.foldl (loadStep s) (loadStep s c g)) g := rfl
        _ = fieldGet (loadStep s c g) g := fieldGet_foldl_not_mem s _ g gs hnotin
        _ = some v := by unfold loadStep; rw [h]; exact fieldGet_setField_self c g v
    · have hm' : f ∈ gs := by
        cases List.mem_cons.mp hm with
        | inl he => exact absurd he.symm hgf
        | inr hm' => exact hm'
      exact ih (loadStep s c g) (List.nodup_cons.mp hnd).2 hm'

/-- C10: for each persisted config field, an `update_config` whose new
config carries `None` in that field leaves the stored value for the
field's key untouched (`save_config` writes only `Some` fields), and
`load_config` run at re-initialization returns whatever value the store
holds for that key — so the last persisted non-None value is restored. -/
theorem c10_config_preserved (s : ConfigStore) (cNew c0 : AgentConfigM)
    (reg : Bool) (f : CfgField) :
    (fieldGet cNew f = none →
      storeGet (update_config cNew s).2 (keyName f) = storeGet s (keyName f))
    ∧ (∀ v, storeGet s (keyName f) = some v →
        fieldGet (load_config c0 reg s).1 f = some v) := by
  constructor
  · intro hnone
    exact storeGet_foldl_save cNew f hnone cfgFields s
  · intro v hv
    show fieldGet (cfgFields.foldl (loadStep s) c0) f = some v
    refine fieldGet_foldl_load s f v hv cfgFields c0 (by decide) ?_
    cases f <;> simp [cfgFields]

/-- Witness for C10 at the `team_id` key: the store keeps `"T"` through an
update whose `team_id` is `None`, and a fresh load restores it. -/
theorem c10_config_preserved_witness :
    storeGet (update_config cfgNoKey [("team_id", "T")]).2 (keyName CfgField.teamId)
      = storeGet [("team_id", "T")] (keyName CfgField.teamId)
    ∧ fieldGet (load_config cfgNoKey false [("team_id", "T")]).1 CfgField.teamId
      = some "T" :=
  ⟨(c10_config_preserved [("team_id", "T")] cfgNoKey cfgNoKey false CfgField.teamId).1 rfl,
   (c10_config_preserved [("team_id", "T")] cfgNoKey cfgNoKey false CfgField.teamId).2 "T" rfl⟩

end FlowSight
